import Mathlib

/-!
Shallow embedding of the Realtime Voice Session Engine of `src/App.tsx`
(the `App` component of the Fluentify voice-conversation client) together
with its data model from `src/types.ts`.

Modelling conventions:
* React state and refs become fields of `AppState`; a `setState` call or a
  ref assignment becomes a functional update.
* Audio-clock times and buffer durations (JS numbers) are modelled as `ℚ`.
* External handles (`AudioContext`, the live session) are `Option` fields:
  `some` means the ref holds an open handle, `none` means null/closed.
* Calls into the audio device (`source.start`, `source.stop`) are recorded
  in ghost log fields (`scheduled`, `stoppedSources`) so that theorems can
  speak about what was scheduled; these logs do not influence control flow.
* `getUserMedia` streams are counted in the ghost field `micStreamsOpen`;
  nothing in `App.tsx` ever stops a stream track, so no operation below
  decrements it.
* Opened live-session handles are tracked in the ghost list `openHandles`;
  `session.close()` removes the closed handle from it.
-/

namespace VoiceApp

/-- `ConversationState` from `src/types.ts`. -/
structure ConversationState where
  isActive : Bool
  isConnecting : Bool
  error : Option String
deriving Repr, DecidableEq

/-- The `sender` field of `Message` (`'user' | 'ai'`). -/
inductive Sender where
  | user
  | ai
deriving Repr, DecidableEq

/-- `Message` from `src/types.ts`; `timestamp : Nat` models the `Date`. -/
structure Message where
  id : String
  text : String
  sender : Sender
  timestamp : Nat
deriving Repr, DecidableEq

/-- The state of the `App` component: React state plus the refs used by the
session engine, with ghost logs for external effects. -/
structure AppState where
  convState : ConversationState
  messages : List Message
  session : Option Nat
  audioContextIn : Option Unit
  audioContextOut : Option Unit
  sources : List Nat
  nextStartTime : ℚ
  currentInputTranscript : String
  currentOutputTranscript : String
  scheduled : List (ℚ × ℚ)
  stoppedSources : List Nat
  micStreamsOpen : Nat
  openHandles : List Nat
deriving Repr, DecidableEq

/-- The component's initial state (`useState` initialisers and `useRef`
initial values in `App.tsx`). -/
def initialState : AppState where
  convState := ⟨false, false, none⟩
  messages := []
  session := none
  audioContextIn := none
  audioContextOut := none
  sources := []
  nextStartTime := 0
  currentInputTranscript := ""
  currentOutputTranscript := ""
  scheduled := []
  stoppedSources := []
  micStreamsOpen := 0
  openHandles := []

/-- `stopConversation` (`App.tsx` lines 40-54): close and null the session
ref, close and null both audio contexts, reset `convState` to idle with no
error.  It touches neither the microphone streams nor `sources`,
`nextStartTime` or the transcript buffers. -/
def stopConversation (s : AppState) : AppState :=
  { s with
    session := none
    openHandles :=
      match s.session with
      | some h => s.openHandles.erase h
      | none => s.openHandles
    audioContextIn := none
    audioContextOut := none
    convState := ⟨false, false, none⟩ }

/-- The audio branch of `onmessage` (`App.tsx` lines 96-111), for one
inbound chunk.  `t` is `ctx.currentTime` as observed by this invocation,
`decoded` is the result of `decodeAudioData (decode base64Audio)`: `some d`
for a buffer of duration `d`, `none` when decoding throws.  Note the cursor
update `nextStartTime := max nextStartTime t` happens before decoding, so a
decode failure still commits it. -/
def onAudioChunk (s : AppState) (t : ℚ) (decoded : Option ℚ) (srcId : Nat) :
    AppState :=
  if s.audioContextOut.isSome then
    let cursor := max s.nextStartTime t
    match decoded with
    | none => { s with nextStartTime := cursor }
    | some d =>
        { s with
          nextStartTime := cursor + d
          scheduled := s.scheduled ++ [(cursor, d)]
          sources := srcId :: s.sources }
  else s

/-- The `inputTranscription` branch of `onmessage` (lines 113-115). -/
def onInputTranscription (s : AppState) (frag : String) : AppState :=
  { s with currentInputTranscript := s.currentInputTranscript ++ frag }

/-- The `outputTranscription` branch of `onmessage` (lines 116-118). -/
def onOutputTranscription (s : AppState) (frag : String) : AppState :=
  { s with currentOutputTranscript := s.currentOutputTranscript ++ frag }

/-- The `turnComplete` branch of `onmessage` (lines 120-143): append a user
message when the pending user text is non-empty (JS string truthiness),
then an ai message when the pending ai text is non-empty, then clear both
buffers unconditionally.  `idU`/`idA` model the `Math.random()` ids and
`ts` the `new Date()` timestamp. -/
def onTurnComplete (s : AppState) (idU idA : String) (ts : Nat) : AppState :=
  let userText := s.currentInputTranscript
  let aiText := s.currentOutputTranscript
  let withUser :=
    if userText = "" then s.messages
    else s.messages ++ [⟨idU, userText, Sender.user, ts⟩]
  let withAi :=
    if aiText = "" then withUser
    else withUser ++ [⟨idA, aiText, Sender.ai, ts⟩]
  { s with
    messages := withAi
    currentInputTranscript := ""
    currentOutputTranscript := "" }

/-- The `interrupted` branch of `onmessage` (lines 145-149): stop every
source in the active set (recorded in the `stoppedSources` ghost log),
clear the set, reset the cursor to 0. -/
def onInterrupted (s : AppState) : AppState :=
  { s with
    stoppedSources := s.stoppedSources ++ s.sources
    sources := []
    nextStartTime := 0 }

/-- `source.onended` (line 107): natural completion removes the source from
the active set. -/
def onSourceEnded (s : AppState) (srcId : Nat) : AppState :=
  { s with sources := s.sources.erase srcId }

/-- One inbound `LiveServerMessage` together with the environment data each
branch consumes: the observed output-clock time, the decode outcome and a
fresh source id for the audio branch; fresh ids and a timestamp for the
turn-complete branch. -/
structure ServerMessage where
  audio : Option (ℚ × Option ℚ × Nat)
  inputTranscription : Option String
  outputTranscription : Option String
  turnComplete : Bool
  interrupted : Bool
  idU : String := ""
  idA : String := ""
  now : Nat := 0

/-- The whole `onmessage` handler (lines 96-150): the five branches run in
source order on a single message. -/
def onmessage (s : AppState) (m : ServerMessage) : AppState :=
  let s1 :=
    match m.audio with
    | some (t, dec, srcId) => onAudioChunk s t dec srcId
    | none => s
  let s2 :=
    match m.inputTranscription with
    | some f => onInputTranscription s1 f
    | none => s1
  let s3 :=
    match m.outputTranscription with
    | some f => onOutputTranscription s2 f
    | none => s2
  let s4 := if m.turnComplete then onTurnComplete s3 m.idU m.idA m.now else s3
  if m.interrupted then onInterrupted s4 else s4

/-- The state update of the `onerror` callback (lines 151-155) before it
calls `stopConversation`: record the generic message, keep the flags. -/
def onerrorRecord (s : AppState) : AppState :=
  { s with
    convState := { s.convState with error := some "Connection error occurred." } }

/-- The full `onerror` callback (lines 151-155): record the generic error,
then run the stop sequence. -/
def onerror (s : AppState) : AppState :=
  stopConversation (onerrorRecord s)

/-- The `onclose` callback (lines 156-158): it only resets `convState`; no
ref is touched, nothing is closed. -/
def onclose (s : AppState) : AppState :=
  { s with convState := ⟨false, false, none⟩ }

/-- The error string computed by the `catch` block of `startConversation`
(line 165): `err.message || 'Failed to start microphone.'` — the raw
message when truthy (non-empty), the fallback otherwise. -/
def catchErrorText (msg : String) : String :=
  if msg = "" then "Failed to start microphone." else msg

/-- How the environment resolves one `startConversation` run: the
microphone request may reject, the live connect may reject (each carrying
the thrown error's `message`), or both succeed. -/
inductive StartEnv where
  | micDenied (msg : String)
  | connectFailed (msg : String)
  | ok
deriving Repr, DecidableEq

/-- The first, synchronous statement of `startConversation` (line 57):
`setConvState(prev => ({ ...prev, isConnecting: true, error: null }))`.
It runs before `getUserMedia` and before any transport interaction. -/
def startStep1 (s : AppState) : AppState :=
  { s with
    convState := { s.convState with isConnecting := true, error := none } }

/-- The remainder of `startConversation` (lines 59-166) after the initial
state update, resolved by `env`; `newHandle` is the identity of the session
handle a successful connect yields.
* `micDenied`: `getUserMedia` rejects; the `catch` records the error.
* `connectFailed`: the stream and both audio contexts were acquired, then
  `await sessionPromise` rejects; the `catch` records the error and nothing
  acquired so far is released.
* `ok`: stream and contexts acquired, `onopen` sets the active state, and
  `sessionRef.current` receives the new handle.  The previous value of
  `sessionRef` is overwritten without being closed, so `openHandles` only
  grows. -/
def startRest (s : AppState) (env : StartEnv) (newHandle : Nat) : AppState :=
  match env with
  | .micDenied msg =>
      { s with convState := ⟨false, false, some (catchErrorText msg)⟩ }
  | .connectFailed msg =>
      { s with
        micStreamsOpen := s.micStreamsOpen + 1
        audioContextIn := some ()
        audioContextOut := some ()
        convState := ⟨false, false, some (catchErrorText msg)⟩ }
  | .ok =>
      { s with
        micStreamsOpen := s.micStreamsOpen + 1
        audioContextIn := some ()
        audioContextOut := some ()
        convState := ⟨true, false, none⟩
        session := some newHandle
        openHandles := newHandle :: s.openHandles }

/-- `startConversation` (lines 56-167): the synchronous state update, then
the microphone/transport phase. -/
def startConversation (s : AppState) (env : StartEnv) (newHandle : Nat) :
    AppState :=
  startRest (startStep1 s) env newHandle

/-- Whether the start button is rendered at all (`App.tsx` line 253: the
start button exists only when `!convState.isActive`). -/
def startButtonShown (cs : ConversationState) : Bool :=
  !cs.isActive

/-- Whether the rendered start button is clickable (line 256: it is
`disabled` while `convState.isConnecting`). -/
def startButtonEnabled (cs : ConversationState) : Bool :=
  !cs.isActive && !cs.isConnecting

/-- Iterate the audio branch over a list of successfully decoded chunks
`(t, d)`: observed clock time `t`, decoded duration `d`. -/
def runEnqueues (s : AppState) : List (ℚ × ℚ) → AppState
  | [] => s
  | (t, d) :: rest => runEnqueues (onAudioChunk s t (some d) 0) rest

/-- Iterate the audio branch over a list of chunks `(t, dec, srcId)` whose
decoding may fail (`dec = none`). -/
def runChunks (s : AppState) : List (ℚ × Option ℚ × Nat) → AppState
  | [] => s
  | (t, dec, srcId) :: rest => runChunks (onAudioChunk s t dec srcId) rest

/-- The start times the audio branch assigns from cursor value `cursor` to a
list of chunks `(t, d)`: each start is `max cursor t`, and the cursor
advances to `start + d`. -/
def schedStarts (cursor : ℚ) : List (ℚ × ℚ) → List ℚ
  | [] => []
  | (t, d) :: rest => max cursor t :: schedStarts (max cursor t + d) rest

/-- The gapless timeline starting at `base` for durations `ds`: segment `i`
starts at `base` plus the sum of the previous durations. -/
def gaplessStarts (base : ℚ) : List ℚ → List ℚ
  | [] => []
  | d :: ds => base :: gaplessStarts (base + d) ds

/-- Arrival keeps up with playback: each chunk's observed clock time is at
most the end of the timeline built so far. -/
def keepsUp (base : ℚ) : List (ℚ × ℚ) → Bool
  | [] => true
  | (t, d) :: rest => decide (t ≤ base) && keepsUp (base + d) rest

/-- Modelled from the spec: the PCM Codec lives in
`services/audioUtils` which is not part of the sources; section 4.1 fixes
its contract.  A float sample in `[-1, 1]` becomes a 16-bit signed integer
by scaling to the symmetric 16-bit range and rounding to the nearest
integer. -/
def encodeSample (x : ℚ) : ℤ :=
  round (x * 32767)

/-- Modelled from the spec: one 16-bit signed integer packed as two bytes,
little-endian (low byte first), using the two's-complement representation. -/
def int16ToBytes (n : ℤ) : List ℕ :=
  [(n % 65536).toNat % 256, (n % 65536).toNat / 256]

/-- Modelled from the spec: read back one little-endian two's-complement
16-bit signed integer from its two bytes. -/
def bytesToInt16 (lo hi : ℕ) : ℤ :=
  if lo + 256 * hi < 32768 then (lo + 256 * hi : ℤ)
  else (lo + 256 * hi : ℤ) - 65536

/-- Modelled from the spec: `encode` packs the scaled samples consecutively
as little-endian 16-bit signed integers.  The payload is modelled as the
byte sequence; the outer text-safe transport encoding is an invertible
byte-for-byte layer and is omitted. -/
def encode (xs : List ℚ) : List ℕ :=
  (xs.map encodeSample).flatMap int16ToBytes

/-- Modelled from the spec: group the payload bytes back into 16-bit
signed integers (little-endian pairs). -/
def bytesToInts : List ℕ → List ℤ
  | lo :: hi :: rest => bytesToInt16 lo hi :: bytesToInts rest
  | _ => []

/-- Modelled from the spec: `decode` is the inverse mapping, scaled back to
`[-1, 1]`. -/
def decode (bs : List ℕ) : List ℚ :=
  (bytesToInts bs).map (fun n : ℤ => (n : ℚ) / 32767)

/-- A sample rounded to the nearest representable 16-bit quantization
step. -/
def nearestStep (x : ℚ) : ℚ :=
  ((round (x * 32767) : ℤ) : ℚ) / 32767

/-- A demo state of an active session holding handle 1, both audio
contexts and one microphone stream. -/
def activeDemo : AppState :=
  { initialState with
    convState := ⟨true, false, none⟩
    session := some 1
    audioContextIn := some ()
    audioContextOut := some ()
    micStreamsOpen := 1
    openHandles := [1] }

/-- A demo state with only the output audio context open, as the playback
side of a session sees it. -/
def demoOut : AppState :=
  { initialState with audioContextOut := some () }

end VoiceApp

namespace VoiceApp

/-- The audio branch on a successfully decoded chunk, when the output
context is open. -/
theorem onAudioChunk_some_eq (s : AppState) (t d : ℚ) (i : Nat)
    (h : s.audioContextOut.isSome = true) :
    onAudioChunk s t (some d) i =
      { s with
        nextStartTime := max s.nextStartTime t + d
        scheduled := s.scheduled ++ [(max s.nextStartTime t, d)]
        sources := i :: s.sources } := by
  simp [onAudioChunk, h]

/-- The audio branch on a chunk whose decode fails, when the output context
is open: only the pre-decode cursor bump survives. -/
theorem onAudioChunk_none_eq (s : AppState) (t : ℚ) (i : Nat)
    (h : s.audioContextOut.isSome = true) :
    onAudioChunk s t none i = { s with nextStartTime := max s.nextStartTime t } := by
  simp [onAudioChunk, h]

/-- The audio branch never touches the output context ref. -/
theorem onAudioChunk_audioContextOut (s : AppState) (t : ℚ) (dec : Option ℚ)
    (i : Nat) :
    (onAudioChunk s t dec i).audioContextOut = s.audioContextOut := by
  unfold onAudioChunk
  split
  · cases dec <;> rfl
  · rfl

/-- The audio branch never touches the session state. -/
theorem onAudioChunk_convState (s : AppState) (t : ℚ) (dec : Option ℚ)
    (i : Nat) :
    (onAudioChunk s t dec i).convState = s.convState := by
  unfold onAudioChunk
  split
  · cases dec <;> rfl
  · rfl

/-- While the output context is open, the start times `runEnqueues` assigns
are exactly `schedStarts` of the current cursor. -/
theorem runEnqueues_scheduled (calls : List (ℚ × ℚ)) :
    ∀ s : AppState, s.audioContextOut.isSome = true →
      (runEnqueues s calls).scheduled.map Prod.fst =
        s.scheduled.map Prod.fst ++ schedStarts s.nextStartTime calls := by
  induction calls with
  | nil => intro s _; simp [runEnqueues, schedStarts]
  | cons c rest ih =>
      obtain ⟨t, d⟩ := c
      intro s h
      rw [runEnqueues, onAudioChunk_some_eq s t d 0 h, ih _ (by simpa using h),
        schedStarts]
      simp

/-- When arrival keeps up with the running timeline, the assigned starts
form the gapless timeline. -/
theorem schedStarts_keepsUp (calls : List (ℚ × ℚ)) :
    ∀ base : ℚ, keepsUp base calls = true →
      schedStarts base calls = gaplessStarts base (calls.map Prod.snd) := by
  induction calls with
  | nil => intro base _; simp [schedStarts, gaplessStarts]
  | cons c rest ih =>
      obtain ⟨t, d⟩ := c
      intro base h
      rw [keepsUp, Bool.and_eq_true, decide_eq_true_eq] at h
      rw [schedStarts, max_eq_left h.1, List.map_cons, gaplessStarts,
        ih _ h.2]

/-- Processing chunk lists in two stages agrees with one pass. -/
theorem runChunks_append (a b : List (ℚ × Option ℚ × Nat)) :
    ∀ s : AppState, runChunks s (a ++ b) = runChunks (runChunks s a) b := by
  induction a with
  | nil => intro s; rfl
  | cons c rest ih =>
      obtain ⟨t, dec, i⟩ := c
      intro s
      rw [List.cons_append, runChunks, runChunks, ih]

/-- A chunk whose decode failed leaves no trace once the next chunk is
processed, provided the output clock did not run backwards in between. -/
theorem onAudioChunk_drop_absorbed (s : AppState) (tb t : ℚ) (dec : Option ℚ)
    (i j : Nat) (h : tb ≤ t) :
    onAudioChunk (onAudioChunk s tb none j) t dec i = onAudioChunk s t dec i := by
  by_cases hc : s.audioContextOut.isSome = true
  · rw [onAudioChunk_none_eq s tb j hc]
    cases dec with
    | none =>
        rw [onAudioChunk_none_eq _ t i (by simpa using hc),
          onAudioChunk_none_eq s t i hc]
        simp [max_assoc, max_eq_right h]
    | some d =>
        rw [onAudioChunk_some_eq _ t d i (by simpa using hc),
          onAudioChunk_some_eq s t d i hc]
        simp [max_assoc, max_eq_right h]
  · have hc' : ¬s.audioContextOut.isSome = true := hc
    have hid : onAudioChunk s tb none j = s := by
      unfold onAudioChunk
      rw [if_neg hc']
    rw [hid]

/-- A failed decode schedules nothing, stops nothing and registers no
source. -/
theorem onAudioChunk_none_effects (s : AppState) (t : ℚ) (j : Nat) :
    (onAudioChunk s t none j).scheduled = s.scheduled ∧
      (onAudioChunk s t none j).sources = s.sources ∧
      (onAudioChunk s t none j).messages = s.messages := by
  unfold onAudioChunk
  split <;> simp

/-- The gapless timeline in closed form: its `i`-th entry is the base time
plus the sum of the first `i` durations. -/
theorem gaplessStarts_eq (ds : List ℚ) :
    ∀ base : ℚ, gaplessStarts base ds =
      (List.range ds.length).map (fun i => base + (ds.take i).sum) := by
  induction ds with
  | nil => intro base; simp [gaplessStarts]
  | cons d ds ih =>
      intro base
      rw [gaplessStarts, ih, List.length_cons, List.range_succ_eq_map,
        List.map_cons, List.map_map]
      congr 1
      · simp
      · refine List.map_congr_left fun i _ => ?_
        simp [Function.comp, List.take_succ_cons, add_assoc]

/-- A sample in `[-1, 1]` encodes into the symmetric 16-bit range. -/
theorem encodeSample_mem_range (x : ℚ) (h1 : -1 ≤ x) (h2 : x ≤ 1) :
    -32767 ≤ encodeSample x ∧ encodeSample x ≤ 32767 := by
  unfold encodeSample
  constructor
  · have hlb : (x * 32767 : ℚ) - 1 / 2 < ((round (x * 32767) : ℤ) : ℚ) :=
      sub_half_lt_round _
    have hx : (-32767 : ℚ) ≤ x * 32767 := by nlinarith
    have hcast : ((-32768 : ℤ) : ℚ) < ((round (x * 32767) : ℤ) : ℚ) := by
      push_cast
      linarith
    have : (-32768 : ℤ) < round (x * 32767) := by exact_mod_cast hcast
    omega
  · have hub : ((round (x * 32767) : ℤ) : ℚ) ≤ x * 32767 + 1 / 2 :=
      round_le_add_half _
    have hx : (x * 32767 : ℚ) ≤ 32767 := by nlinarith
    have hcast : ((round (x * 32767) : ℤ) : ℚ) < ((32768 : ℤ) : ℚ) := by
      push_cast
      linarith
    have : round (x * 32767) < (32768 : ℤ) := by exact_mod_cast hcast
    omega

/-- Little-endian two's-complement packing of a 16-bit signed integer is
read back exactly. -/
theorem bytesToInts_int16ToBytes (n : ℤ) (rest : List ℕ)
    (h1 : -32768 ≤ n) (h2 : n ≤ 32767) :
    bytesToInts (int16ToBytes n ++ rest) = n :: bytesToInts rest := by
  rw [int16ToBytes, List.cons_append, List.cons_append, List.nil_append]
  simp only [bytesToInts]
  congr 1
  rw [bytesToInt16]
  split <;> omega

/-- Quantizing moves a sample by at most half a 16-bit step. -/
theorem nearestStep_close (x : ℚ) : |nearestStep x - x| ≤ 1 / 65534 := by
  have h32 : (0 : ℚ) < 32767 := by norm_num
  have hrepr : nearestStep x - x =
      (((round (x * 32767) : ℤ) : ℚ) - x * 32767) / 32767 := by
    rw [nearestStep]
    field_simp
    ring
  have hround : |((round (x * 32767) : ℤ) : ℚ) - x * 32767| ≤ 1 / 2 := by
    rw [abs_sub_comm]
    exact abs_sub_round _
  rw [hrepr, abs_div, abs_of_pos h32]
  calc |((round (x * 32767) : ℤ) : ℚ) - x * 32767| / 32767
      ≤ (1 / 2) / 32767 := by
        exact (div_le_div_iff_of_pos_right h32).mpr hround
    _ = 1 / 65534 := by norm_num

/-- Decoding an encoded sample sequence yields exactly the quantized
samples, one per input sample. -/
theorem decode_encode_eq (xs : List ℚ) (hb : ∀ x ∈ xs, -1 ≤ x ∧ x ≤ 1) :
    decode (encode xs) = xs.map nearestStep := by
  induction xs with
  | nil => rfl
  | cons x xs ih =>
      have hx := hb x (List.mem_cons_self x xs)
      have hr := encodeSample_mem_range x hx.1 hx.2
      have ihx := ih fun y hy => hb y (List.mem_cons_of_mem x hy)
      have hstep : encode (x :: xs) = int16ToBytes (encodeSample x) ++ encode xs := by
        simp [encode, List.flatMap_cons]
      rw [hstep, decode, bytesToInts_int16ToBytes _ _ (by omega) (by omega),
        List.map_cons]
      congr 1

/-- C1 counterexample: after `onerror` has run on an active session, the
stop sequence has reset `convState`, so the error field is `none`, not the
recorded generic message — the claim that the error remains surfaced once
the stop sequence has completed is false. -/
theorem claim_C1_cex :
    (onerror activeDemo).convState.error = none ∧
      (onerror activeDemo).convState = ⟨false, false, none⟩ :=
  ⟨rfl, rfl⟩

/-- C1 amended: a transport error first records the generic message
`Connection error occurred.` and then performs the full stop sequence,
which releases the session handle and both audio contexts but resets
`convState` to idle with `error = none`; the error does not remain
surfaced after the stop sequence completes. -/
theorem claim_C1_amended (s : AppState) :
    onerror s = stopConversation (onerrorRecord s) ∧
      (onerrorRecord s).convState.error = some "Connection error occurred." ∧
      (onerrorRecord s).convState.isActive = s.convState.isActive ∧
      (onerror s).convState = ⟨false, false, none⟩ ∧
      (onerror s).session = none ∧
      (onerror s).audioContextIn = none ∧
      (onerror s).audioContextOut = none :=
  ⟨rfl, rfl, rfl, rfl, rfl, rfl, rfl⟩

/-- C2 counterexample: after a remote-initiated close on an active session,
the session handle and both audio contexts are still held — `onclose` only
resets `convState` and releases nothing. -/
theorem claim_C2_cex :
    (onclose activeDemo).session = some 1 ∧
      (onclose activeDemo).audioContextIn = some () ∧
      (onclose activeDemo).audioContextOut = some () ∧
      (onclose activeDemo).openHandles = [1] :=
  ⟨rfl, rfl, rfl, rfl⟩

/-- C2 amended: the session handle and both audio contexts are released on
the explicit `stop` path and on the transport-error path, but on a remote
close nothing is released — only the state is reset — and the microphone
stream is not stopped on any path. -/
theorem claim_C2_amended (s : AppState) :
    (stopConversation s).session = none ∧
      (stopConversation s).audioContextIn = none ∧
      (stopConversation s).audioContextOut = none ∧
      (stopConversation s).micStreamsOpen = s.micStreamsOpen ∧
      (onerror s).session = none ∧
      (onerror s).audioContextIn = none ∧
      (onerror s).audioContextOut = none ∧
      (onerror s).micStreamsOpen = s.micStreamsOpen ∧
      (onclose s).session = s.session ∧
      (onclose s).audioContextIn = s.audioContextIn ∧
      (onclose s).audioContextOut = s.audioContextOut ∧
      (onclose s).micStreamsOpen = s.micStreamsOpen :=
  ⟨rfl, rfl, rfl, rfl, rfl, rfl, rfl, rfl, rfl, rfl, rfl, rfl⟩

/-- C3 counterexample: two enqueues with durations 1 and 1 where the output
clock has advanced to 5 by the second enqueue.  The second segment is
scheduled at 5, not at the claimed `t0 + d1 = 0 + 1`. -/
theorem claim_C3_cex :
    (runEnqueues demoOut [(0, 1), (5, 1)]).scheduled.map Prod.fst = [0, 5] ∧
      (runEnqueues demoOut [(0, 1), (5, 1)]).scheduled.map Prod.fst ≠
        [0, 0 + 1] := by
  norm_num [runEnqueues, onAudioChunk, demoOut, initialState]

/-- C3 amended: provided the cursor does not exceed the clock at the first
enqueue and arrival keeps up with playback (each later enqueue observes a
clock time no larger than the running cursor), segment `i` starts exactly
at the clock time observed at the first enqueue plus the sum of the
previous durations. -/
theorem claim_C3_amended (s : AppState) (t1 d1 : ℚ) (rest : List (ℚ × ℚ))
    (hctx : s.audioContextOut.isSome = true) (hsched : s.scheduled = [])
    (hcur : s.nextStartTime ≤ t1) (hk : keepsUp (t1 + d1) rest = true) :
    (runEnqueues s ((t1, d1) :: rest)).scheduled.map Prod.fst =
      (List.range (rest.length + 1)).map
        (fun i => t1 + ((d1 :: rest.map Prod.snd).take i).sum) := by
  rw [runEnqueues_scheduled _ s hctx, hsched, List.map_nil, List.nil_append,
    schedStarts, max_eq_right hcur, schedStarts_keepsUp rest (t1 + d1) hk]
  have hcons : t1 :: gaplessStarts (t1 + d1) (rest.map Prod.snd)
      = gaplessStarts t1 (d1 :: rest.map Prod.snd) := by
    rw [gaplessStarts]
  rw [hcons, gaplessStarts_eq]
  simp

/-- C3 amended witness: three enqueues with durations 1, 1, 2 beginning at
clock time 2, arrival keeping up; the starts are 2, 3, 4. -/
theorem claim_C3_amended_witness :
    demoOut.audioContextOut.isSome = true ∧
      demoOut.scheduled = [] ∧
      demoOut.nextStartTime ≤ 2 ∧
      keepsUp ((2 : ℚ) + 1) [(5 / 2, 1), (3, 2)] = true ∧
      (runEnqueues demoOut (((2 : ℚ), (1 : ℚ)) :: [(5 / 2, 1), (3, 2)])).scheduled.map Prod.fst =
        (List.range ([((5 : ℚ) / 2, (1 : ℚ)), (3, 2)].length + 1)).map
          (fun i => 2 + (((1 : ℚ) :: [((5 : ℚ) / 2, (1 : ℚ)), (3, 2)].map Prod.snd).take i).sum) :=
  ⟨rfl, rfl, by norm_num [demoOut, initialState], by norm_num [keepsUp],
    claim_C3_amended demoOut 2 1 [(5 / 2, 1), (3, 2)] rfl rfl
      (by norm_num [demoOut, initialState]) (by norm_num [keepsUp])⟩

/-- C4: the `interrupted` branch stops every active segment, clears the
active set, and resets the cursor to 0, so the next enqueue (at any
nonnegative clock time `t`) is scheduled at `t` itself rather than at the
previous cursor. -/
theorem claim_C4 (s : AppState) (t d : ℚ) (i : Nat)
    (hctx : s.audioContextOut.isSome = true) (ht : 0 ≤ t) :
    (onInterrupted s).sources = [] ∧
      (onInterrupted s).nextStartTime = 0 ∧
      (onInterrupted s).stoppedSources = s.stoppedSources ++ s.sources ∧
      (onAudioChunk (onInterrupted s) t (some d) i).scheduled =
        (onInterrupted s).scheduled ++ [(t, d)] := by
  refine ⟨rfl, rfl, rfl, ?_⟩
  rw [onAudioChunk_some_eq _ t d i (by simpa [onInterrupted] using hctx)]
  simp [onInterrupted, max_eq_right ht]

/-- C4 witness: interrupting the demo session and then enqueueing a chunk
of duration 2 at clock time 3 schedules it at 3. -/
theorem claim_C4_witness :
    activeDemo.audioContextOut.isSome = true ∧ (0 : ℚ) ≤ 3 ∧
      (onInterrupted activeDemo).sources = [] ∧
      (onInterrupted activeDemo).nextStartTime = 0 ∧
      (onInterrupted activeDemo).stoppedSources =
        activeDemo.stoppedSources ++ activeDemo.sources ∧
      (onAudioChunk (onInterrupted activeDemo) 3 (some 2) 0).scheduled =
        (onInterrupted activeDemo).scheduled ++ [(3, 2)] :=
  ⟨rfl, by norm_num,
    (claim_C4 activeDemo 3 2 0 rfl (by norm_num)).1,
    (claim_C4 activeDemo 3 2 0 rfl (by norm_num)).2.1,
    (claim_C4 activeDemo 3 2 0 rfl (by norm_num)).2.2.1,
    (claim_C4 activeDemo 3 2 0 rfl (by norm_num)).2.2.2⟩

/-- C5: the `turnComplete` branch appends the pending user message (when
non-empty) before the pending assistant message (when non-empty), a side
with an empty buffer contributes nothing, both buffers are cleared
unconditionally, and a second turn-complete with no intervening fragments
appends no messages. -/
theorem claim_C5 (s : AppState) (idU idA idU2 idA2 : String) (ts ts2 : Nat) :
    (onTurnComplete s idU idA ts).messages =
      s.messages ++
        (if s.currentInputTranscript = "" then []
         else [⟨idU, s.currentInputTranscript, Sender.user, ts⟩]) ++
        (if s.currentOutputTranscript = "" then []
         else [⟨idA, s.currentOutputTranscript, Sender.ai, ts⟩]) ∧
      (onTurnComplete s idU idA ts).currentInputTranscript = "" ∧
      (onTurnComplete s idU idA ts).currentOutputTranscript = "" ∧
      (onTurnComplete (onTurnComplete s idU idA ts) idU2 idA2 ts2).messages =
        (onTurnComplete s idU idA ts).messages := by
  refine ⟨?_, rfl, rfl, ?_⟩
  · simp only [onTurnComplete]
    split_ifs <;> simp
  · simp [onTurnComplete]

/-- C6 counterexample: calling `startConversation` while the session is
active is not a no-op — the connecting flag is set at once, and a
successful run opens a second transport handle (handle 2) while handle 1
is still open, and overwrites the session ref. -/
theorem claim_C6_cex :
    activeDemo.convState.isActive = true ∧
      (startStep1 activeDemo).convState.isConnecting = true ∧
      (startConversation activeDemo .ok 2).openHandles = [2, 1] ∧
      (startConversation activeDemo .ok 2).session = some 2 ∧
      startConversation activeDemo .ok 2 ≠ activeDemo := by
  refine ⟨rfl, rfl, rfl, rfl, ?_⟩
  intro h
  exact absurd (congrArg (fun st => st.openHandles) h) (by decide)

/-- C6 amended: `startConversation` itself performs no state guard: invoked
while Active it immediately sets `isConnecting`, and a successful run opens
an additional transport handle without closing the previous one; the
Idle-only guard exists only in the UI, which does not render the start
control while the session is active. -/
theorem claim_C6_amended (s : AppState) (h : Nat)
    (hA : s.convState.isActive = true) :
    startButtonShown s.convState = false ∧
      (startStep1 s).convState.isConnecting = true ∧
      (startStep1 s).convState.isActive = true ∧
      (startConversation s .ok h).openHandles.length =
        s.openHandles.length + 1 ∧
      (startConversation s .ok h).session = some h := by
  refine ⟨?_, rfl, ?_, rfl, rfl⟩
  · simp [startButtonShown, hA]
  · simp [startStep1, hA]

/-- C6 amended witness: instantiated on the active demo session and a
fresh handle 2. -/
theorem claim_C6_amended_witness :
    activeDemo.convState.isActive = true ∧
      startButtonShown activeDemo.convState = false ∧
      (startStep1 activeDemo).convState.isConnecting = true ∧
      (startStep1 activeDemo).convState.isActive = true ∧
      (startConversation activeDemo .ok 2).openHandles.length =
        activeDemo.openHandles.length + 1 ∧
      (startConversation activeDemo .ok 2).session = some 2 :=
  ⟨rfl, (claim_C6_amended activeDemo 2 rfl).1,
    (claim_C6_amended activeDemo 2 rfl).2.1,
    (claim_C6_amended activeDemo 2 rfl).2.2.1,
    (claim_C6_amended activeDemo 2 rfl).2.2.2.1,
    (claim_C6_amended activeDemo 2 rfl).2.2.2.2⟩

/-- C7: decoding an encoded sample sequence (samples in `[-1, 1]`)
reproduces, sample for sample and length-preservingly, the input rounded to
the nearest representable 16-bit quantization step; each encoded integer is
within the signed 16-bit range and each quantized sample is within half a
step (`1/65534`) of the original. -/
theorem claim_C7 (xs : List ℚ) (hb : ∀ x ∈ xs, -1 ≤ x ∧ x ≤ 1) :
    decode (encode xs) = xs.map nearestStep ∧
      (decode (encode xs)).length = xs.length ∧
      (∀ x ∈ xs, -32767 ≤ encodeSample x ∧ encodeSample x ≤ 32767) ∧
      (∀ x ∈ xs, |nearestStep x - x| ≤ 1 / 65534) := by
  refine ⟨decode_encode_eq xs hb, ?_, ?_, ?_⟩
  · rw [decode_encode_eq xs hb, List.length_map]
  · exact fun x hx => encodeSample_mem_range x (hb x hx).1 (hb x hx).2
  · exact fun x _ => nearestStep_close x

/-- C7 witness: instantiated on the sample sequence `[1, -1, 0, 1/2]`. -/
theorem claim_C7_witness :
    (∀ x ∈ [(1 : ℚ), -1, 0, 1 / 2], -1 ≤ x ∧ x ≤ 1) ∧
      (decode (encode [(1 : ℚ), -1, 0, 1 / 2]) =
        [(1 : ℚ), -1, 0, 1 / 2].map nearestStep ∧
      (decode (encode [(1 : ℚ), -1, 0, 1 / 2])).length =
        [(1 : ℚ), -1, 0, 1 / 2].length ∧
      (∀ x ∈ [(1 : ℚ), -1, 0, 1 / 2],
        -32767 ≤ encodeSample x ∧ encodeSample x ≤ 32767) ∧
      (∀ x ∈ [(1 : ℚ), -1, 0, 1 / 2], |nearestStep x - x| ≤ 1 / 65534)) :=
  ⟨by norm_num, claim_C7 [(1 : ℚ), -1, 0, 1 / 2] (by norm_num)⟩

/-- C8 counterexample: with chunks of duration 1 arriving at clock time 0,
a failing middle chunk yields starts `[0, 1]` — the chunk after the bad one
starts at 1 — whereas had the bad chunk been well-formed (duration 1) that
chunk would start at 2.  Subsequent chunks are therefore not scheduled as
they would have been had the bad chunk been well-formed. -/
theorem claim_C8_cex :
    (runChunks demoOut [(0, some 1, 0), (0, none, 1), (0, some 1, 2)]).scheduled.map Prod.fst
        = [0, 1] ∧
      (runChunks demoOut [(0, some 1, 0), (0, some 1, 1), (0, some 1, 2)]).scheduled.map Prod.fst
        = [0, 1, 2] ∧
      ((1 : ℚ)) ≠ 2 := by
  norm_num [runChunks, onAudioChunk, demoOut, initialState]

/-- C8 amended: a decode failure is local — it schedules nothing, registers
no source, leaves the session state unchanged — and, provided the output
clock does not run backwards, every other chunk (earlier or later) is
scheduled exactly as it would have been had the bad chunk never arrived. -/
theorem claim_C8_amended (s : AppState) (pre post : List (ℚ × Option ℚ × Nat))
    (tb t : ℚ) (dec : Option ℚ) (i j : Nat) (hmono : tb ≤ t) :
    runChunks s (pre ++ (tb, none, j) :: (t, dec, i) :: post) =
      runChunks s (pre ++ (t, dec, i) :: post) ∧
      (onAudioChunk s tb none j).convState = s.convState ∧
      (onAudioChunk s tb none j).scheduled = s.scheduled ∧
      (onAudioChunk s tb none j).sources = s.sources := by
  refine ⟨?_, onAudioChunk_convState s tb none j,
    (onAudioChunk_none_effects s tb j).1, (onAudioChunk_none_effects s tb j).2.1⟩
  rw [runChunks_append, runChunks_append]
  have hstep : runChunks (runChunks s pre) ((tb, none, j) :: (t, dec, i) :: post)
      = runChunks (onAudioChunk (onAudioChunk (runChunks s pre) tb none j) t dec i) post :=
    rfl
  rw [hstep, onAudioChunk_drop_absorbed _ _ _ _ _ _ hmono]
  rfl

/-- C8 amended witness: a failing chunk at clock time 1/2 between two good
chunks, with the clock at 1 for the following chunk. -/
theorem claim_C8_amended_witness :
    (1 / 2 : ℚ) ≤ 1 ∧
      (runChunks demoOut ([(0, some 1, 0)] ++ (1 / 2, none, 9) :: (1, some 1, 1) :: []) =
        runChunks demoOut ([(0, some 1, 0)] ++ (1, some 1, 1) :: []) ∧
      (onAudioChunk demoOut (1 / 2) none 9).convState = demoOut.convState ∧
      (onAudioChunk demoOut (1 / 2) none 9).scheduled = demoOut.scheduled ∧
      (onAudioChunk demoOut (1 / 2) none 9).sources = demoOut.sources) :=
  ⟨by norm_num,
    claim_C8_amended demoOut [(0, some 1, 0)] [] (1 / 2) 1 (some 1) 1 9
      (by norm_num)⟩

/-- C9 counterexample: two microphone-permission failures of the same
category but with different thrown messages are recorded verbatim — the
recorded string is the raw diagnostic, not a stable per-category string. -/
theorem claim_C9_cex :
    (startConversation initialState (.micDenied "SecurityError: device busy") 0).convState.error
        = some "SecurityError: device busy" ∧
      (startConversation initialState (.micDenied "NotAllowedError") 0).convState.error
        = some "NotAllowedError" :=
  ⟨rfl, rfl⟩

/-- C9 amended: on a start failure the recorded error string is the thrown
error's raw message whenever that message is non-empty — for permission
denial and transport-open failure alike — and the stable fallback
`Failed to start microphone.` is used only when the message is empty. -/
theorem claim_C9_amended (s : AppState) (msg : String) (h : Nat)
    (hmsg : msg ≠ "") :
    (startConversation s (.micDenied msg) h).convState.error = some msg ∧
      (startConversation s (.connectFailed msg) h).convState.error = some msg ∧
      (startConversation s (.micDenied "") h).convState.error =
        some "Failed to start microphone." := by
  refine ⟨?_, ?_, rfl⟩ <;>
    simp [startConversation, startRest, startStep1, catchErrorText, hmsg]

/-- C9 amended witness: instantiated with the thrown message `boom`. -/
theorem claim_C9_amended_witness :
    ("boom" : String) ≠ "" ∧
      ((startConversation initialState (.micDenied "boom") 0).convState.error = some "boom" ∧
      (startConversation initialState (.connectFailed "boom") 0).convState.error = some "boom" ∧
      (startConversation initialState (.micDenied "") 0).convState.error =
        some "Failed to start microphone.") :=
  ⟨by decide, claim_C9_amended initialState "boom" 0 (by decide)⟩

/-- C10: `startConversation` factors as the synchronous state update
followed by the microphone/transport phase; the synchronous update sets
`isConnecting`, clears any previous error, preserves the other state, and
touches no microphone or transport resource. -/
theorem claim_C10 (s : AppState) (env : StartEnv) (h : Nat) :
    startConversation s env h = startRest (startStep1 s) env h ∧
      (startStep1 s).convState.isConnecting = true ∧
      (startStep1 s).convState.error = none ∧
      (startStep1 s).convState.isActive = s.convState.isActive ∧
      (startStep1 s).micStreamsOpen = s.micStreamsOpen ∧
      (startStep1 s).openHandles = s.openHandles ∧
      (startStep1 s).session = s.session :=
  ⟨rfl, rfl, rfl, rfl, rfl, rfl, rfl⟩

end VoiceApp
